import Mathlib

/-!
A verification development for the go-smtpsrv SMTP server library.

The Go sources are shallowly embedded: strings are modelled as Lean
strings (lists of characters), Go byte indices as character indices,
Go `map` values as association lists, and the external world seen by a
command processor (the parsed DATA body, the user handler's result,
SPF and MX lookups) as explicit oracle arguments.  Each SMTP command
processor becomes a pure function from a `Request` to a `ProcResult`
carrying the successor state and the list of reply lines written.
Reply writes are assumed to succeed (no transport I/O errors), which
is the regime all the claims under study speak about.
-/

namespace SmtpSrv

/-- Shallow model of Go `unicode.IsSpace` restricted to the characters
relevant here (ASCII whitespace plus NEL and NBSP, as in the Latin-1
fast path of the Go implementation). -/
def isSpaceGo (c : Char) : Bool :=
  c = ' ' || c = '\t' || c = '\n' || c = '\x0b' || c = '\x0c' || c = '\r' ||
  c.val = 0x85 || c.val = 0xA0

/-- Characters matched by `\s` in Go's regexp (RE2 Perl class). -/
def isSpaceRe (c : Char) : Bool :=
  c = '\t' || c = '\n' || c = '\x0c' || c = '\r' || c = ' '

/-- `strings.TrimSpace`, left half: drop leading whitespace. -/
def trimLeftWs (l : List Char) : List Char :=
  l.dropWhile isSpaceGo

/-- `strings.TrimSpace`, right half: drop trailing whitespace. -/
def trimRightWs (l : List Char) : List Char :=
  (l.reverse.dropWhile isSpaceGo).reverse

/-- `strings.TrimSpace` on a list of characters. -/
def trimSpace (l : List Char) : List Char :=
  trimRightWs (trimLeftWs l)

/-- Index of the last occurrence of `c`, as in Go `strings.LastIndex`
(specialised to a one-character needle); `none` models Go's `-1`.
The accumulator `i` is the index of the head of `l` in the original list. -/
def lastIdxAux (c : Char) : List Char → Nat → Option Nat
  | [], _ => none
  | x :: xs, i =>
    match lastIdxAux c xs (i + 1) with
    | some j => some j
    | none => if x = c then some i else none

/-- `strings.LastIndex l c` (one-character needle). -/
def lastIndex (l : List Char) (c : Char) : Option Nat :=
  lastIdxAux c l 0

/-- `strings.ToLower` per character (the ASCII case it performs on the
inputs of interest): map each of the 26 uppercase Latin letters to its
lowercase form, leave everything else alone. -/
def toLowerGo (c : Char) : Char :=
  match c with
  | 'A' => 'a' | 'B' => 'b' | 'C' => 'c' | 'D' => 'd' | 'E' => 'e'
  | 'F' => 'f' | 'G' => 'g' | 'H' => 'h' | 'I' => 'i' | 'J' => 'j'
  | 'K' => 'k' | 'L' => 'l' | 'M' => 'm' | 'N' => 'n' | 'O' => 'o'
  | 'P' => 'p' | 'Q' => 'q' | 'R' => 'r' | 'S' => 's' | 'T' => 't'
  | 'U' => 'u' | 'V' => 'v' | 'W' => 'w' | 'X' => 'x' | 'Y' => 'y'
  | 'Z' => 'z'
  | c => c

/-- `CanonicalizeEmail` from the source, on a list of characters: trim
whitespace, lowercase, delete every '.', and if the last '+' sits at a
positive index truncate just before it. -/
def canonicalizeL (l : List Char) : List Char :=
  let t := (trimSpace l).map toLowerGo
  let nodots := t.filter (fun c => !(c = '.'))
  match lastIndex nodots '+' with
  | some li => if 0 < li then nodots.take li else nodots
  | none => nodots

/-- `CanonicalizeEmail` from `request.go` / `server.go`. -/
def CanonicalizeEmail (s : String) : String :=
  String.mk (canonicalizeL s.data)

/-- `SplitAddress` on a list of characters: split at the last '@'. -/
def splitAddressL (l : List Char) : Option (List Char × List Char) :=
  match lastIndex l '@' with
  | none => none
  | some i => some (l.take i, l.drop (i + 1))

/-- `SplitAddress` from the source: last '@' separates local from domain;
no '@' at all is the error `Invalid Address:<s>`. -/
def SplitAddress (s : String) : Except String (String × String) :=
  match splitAddressL s.data with
  | none => Except.error ("Invalid Address:" ++ s)
  | some (a, b) => Except.ok (String.mk a, String.mk b)

/-- Whether `inner` matches the optional group `((\S+)@(\S+))?` of the
anchored address regex `^<((\S+)@(\S+))?>$` from `vars.go`: either empty,
or entirely non-space with an '@' at some interior position (so that both
sides of that '@' are non-empty runs of non-space characters). -/
def innerGroupOk (inner : List Char) : Bool :=
  inner.isEmpty ||
    (inner.all (fun c => !isSpaceRe c) && ((inner.drop 1).dropLast.contains '@'))

/-- `emailRegExp.MatchString` plus `FindStringSubmatch(...)[1]` of the
go-smtpsrv pattern `^<((\S+)@(\S+))?>$`: `some g1` when the whole string
matches, where `g1` is the first capture (the address between the angle
brackets, possibly empty for `<>`). -/
def emailMatch (s : String) : Option String :=
  let cs := s.data
  if 2 ≤ cs.length && cs.head? = some '<' && cs.getLast? = some '>' then
    let inner := (cs.drop 1).dropLast
    if innerGroupOk inner then some (String.mk inner) else none
  else none

/-- Opaque stand-in for a parsed `mail.Message`. -/
inductive MessageR
  | mk

instance : DecidableEq MessageR := fun a b => by
  cases a; cases b; exact isTrue rfl

instance {ε α : Type} [DecidableEq ε] [DecidableEq α] :
    DecidableEq (Except ε α) := fun x y =>
  match x, y with
  | Except.ok a, Except.ok b =>
    if h : a = b then isTrue (by rw [h])
    else isFalse (fun hc => h (by injection hc))
  | Except.error e, Except.error f =>
    if h : e = f then isTrue (by rw [h])
    else isFalse (fun hc => h (by injection hc))
  | Except.ok _, Except.error _ => isFalse (fun hc => Except.noConfusion hc)
  | Except.error _, Except.ok _ => isFalse (fun hc => Except.noConfusion hc)

/-- One reply line: status code, whether it is a `-` continuation line,
and the text after the separator. -/
structure Reply where
  code : Nat
  cont : Bool
  text : String
deriving DecidableEq, Repr

/-- The wire rendering of a reply line (`"250-AUTH PLAIN"`, `"250 Ok"`, ...). -/
def Reply.render (r : Reply) : String :=
  toString r.code ++ (if r.cont then "-" else " ") ++ r.text

/-- The server configuration fields read by the processors under study.
Callbacks are modelled by presence flags / optional functions. -/
structure ServerS where
  name : String
  authSet : Bool
  addressable : Option (String → String → Bool)
  tlsConfigured : Bool
  maxBodySize : Int

/-- The per-connection `Request` state from `request.go`, restricted to
the fields the claims are about.  `tlsState` models `TLSState != nil`. -/
structure Request where
  server : ServerS
  tlsState : Bool
  helloHost : String
  helloRecieved : Bool
  mailFromReceived : Bool
  authUser : String
  fromAddr : String
  toRcpts : List String
  message : Option MessageR
  quitSent : Bool
  spfResult : Nat
  mailable : Bool
  line : List String

/-- `Request.Reset` from `request.go`: restore the transaction fields to
their defaults. -/
def Request.Reset (req : Request) : Request :=
  { req with fromAddr := "", mailFromReceived := false, toRcpts := [], message := none }

/-- The state and written replies produced by one processor invocation. -/
structure ProcResult where
  req : Request
  replies : List Reply

/-- `ehloProcessor` from `request.go` (shared by EHLO and HELO): reset the
transaction, record the hello host, and emit the capability banner.  The
`AUTH PLAIN` line is gated on the auth callback being set and TLS being
either unconfigured or already active. -/
def ehloProcessor (req : Request) : ProcResult :=
  if req.line.length < 2 then
    ⟨req, [⟨501, false, "Not enough arguments"⟩]⟩
  else
    let host := req.line.getD 1 ""
    let req1 := { req.Reset with helloHost := host, helloRecieved := true }
    let banner :=
      [Reply.mk 250 true ("Greets " ++ host)]
      ++ (if req.server.tlsConfigured && !req.tlsState then
            [Reply.mk 250 true "STARTTLS"] else [])
      ++ (if ((req.server.tlsConfigured && req.tlsState) || !req.server.tlsConfigured)
             && req.server.authSet then
            [Reply.mk 250 true "AUTH PLAIN"] else [])
      ++ [Reply.mk 250 true "PIPELINING", Reply.mk 250 true "SMTPUTF8",
          Reply.mk 250 false "8BITMIME"]
    ⟨req1, banner⟩

/-- The EHLO banner of the `conn.readCommand` variant in `server.go`:
identical shape, but `AUTH PLAIN` is emitted whenever the auth callback
is set, with no condition on TLS. -/
def ehloBannerConn (tlsConfigured tlsActive authSet : Bool) (host : String) :
    List Reply :=
  [Reply.mk 250 true ("Greets " ++ host)]
  ++ (if tlsConfigured && !tlsActive then [Reply.mk 250 true "STARTTLS"] else [])
  ++ (if authSet then [Reply.mk 250 true "AUTH PLAIN"] else [])
  ++ [Reply.mk 250 true "PIPELINING", Reply.mk 250 true "SMTPUTF8",
      Reply.mk 250 false "8BITMIME"]

/-- `mailProcessor` from `request.go`.  The SPF and MX lookups are
external effects, passed in as the oracle values `spfRes` and `mxOk`;
they are recorded only when the captured sender address is non-empty. -/
def mailProcessor (req : Request) (spfRes : Nat) (mxOk : Bool) : ProcResult :=
  if req.server.authSet && req.authUser = "" then
    ⟨req, [⟨503, false, "Authentication needed"⟩]⟩
  else if !(req.fromAddr = "") then
    ⟨req, [⟨503, false, "MAIL command already recieved"⟩]⟩
  else if req.line.length < 2 then
    ⟨req, [⟨501, false, "Not enough arguments"⟩]⟩
  else
    let arg := req.line.getD 1 ""
    if !("FROM:".data.isPrefixOf arg.data) then
      ⟨req, [⟨501, false, "MAIL command must be immediately succeeded by 'FROM:'"⟩]⟩
    else
      match emailMatch (String.mk (arg.data.drop 5)) with
      | none => ⟨req, [⟨501, false, "MAIL command contained invalid address"⟩]⟩
      | some fr =>
        let req1 := { req with mailFromReceived := true, fromAddr := fr }
        let req2 :=
          if !(fr = "") then { req1 with spfResult := spfRes, mailable := mxOk }
          else req1
        ⟨req2, [⟨250, false, "Ok"⟩]⟩

/-- `rcptProcessor` from `request.go`.  The `Addressable` callback, when
configured, can veto the recipient. -/
def rcptProcessor (req : Request) : ProcResult :=
  if !req.mailFromReceived then
    ⟨req, [⟨503, false, "Bad sequence of commands"⟩]⟩
  else if req.line.length < 2 then
    ⟨req, [⟨501, false, "Not enough arguments"⟩]⟩
  else
    let arg := req.line.getD 1 ""
    if !("TO:".data.isPrefixOf arg.data) then
      ⟨req, [⟨501, false, "RCPT command must be immediately succeeded by 'TO:'"⟩]⟩
    else
      match emailMatch (String.mk (arg.data.drop 3)) with
      | none => ⟨req, [⟨501, false, "RCPT command contained invalid address"⟩]⟩
      | some toAddr =>
        let vetoed :=
          match req.server.addressable with
          | some f => !(f req.authUser toAddr)
          | none => false
        if vetoed then
          ⟨req, [⟨501, false, "no such user - " ++ toAddr⟩]⟩
        else
          ⟨{ req with toRcpts := req.toRcpts ++ [toAddr] }, [⟨250, false, "Ok"⟩]⟩

/-- `dataProcessor` from `request.go`.  Reading and parsing the
dot-stuffed body through `LimitDataSize`/`mail.ReadMessage` is an
external effect, modelled by the oracle `parsed` (`none` = read or parse
failure, including a body over `MaxBodySize`); the user handler's result
is the oracle `handlerErr`. -/
def dataProcessor (req : Request) (parsed : Option MessageR)
    (handlerErr : Option String) : ProcResult :=
  if req.toRcpts.isEmpty || !req.mailFromReceived then
    ⟨req, [⟨503, false, "Bad sequence of commands"⟩]⟩
  else
    let r354 : Reply := ⟨354, false, "End data with <CR><LF>.<CR><LF>"⟩
    match parsed with
    | none =>
      ⟨{ req with message := none },
        [r354, ⟨503, false,
          "error parsing the DATA, it may exceeded the max size of "
            ++ toString req.server.maxBodySize ++ " bytes"⟩]⟩
    | some m =>
      let req1 := { req with message := some m }
      match handlerErr with
      | some e => ⟨req1.Reset, [r354, ⟨450, false, e⟩]⟩
      | none => ⟨req1.Reset, [r354, ⟨250, false, "OK"⟩]⟩

/-- `rsetProcessor` from `request.go`. -/
def rsetProcessor (req : Request) : ProcResult :=
  ⟨req.Reset, [⟨250, false, "Ok"⟩]⟩

/-- `noopProcessor` from `request.go`. -/
def noopProcessor (req : Request) : ProcResult :=
  ⟨req, [⟨250, false, "OK"⟩]⟩

/-- One slot of the muxer table: handler (identified by a number, since
handler values are opaque) together with the original pattern. -/
structure MuxEntry where
  h : Nat
  pattern : String
deriving DecidableEq, Repr

/-- The per-domain map of a `ServeMux`, as an association list keyed by
the local part. -/
abbrev LocalMap := List (String × MuxEntry)

/-- The `ServeMux` table `m : domain → local → muxEntry`. -/
abbrev MuxTable := List (String × LocalMap)

/-- Go map assignment on an association list: overwrite an existing key
or append a new binding. -/
def mapSet {α : Type} (m : List (String × α)) (k : String) (v : α) :
    List (String × α) :=
  match m with
  | [] => [(k, v)]
  | (k', v') :: rest =>
    if k' = k then (k, v) :: rest else (k', v') :: mapSet rest k v

/-- `ServeMux.Handle` from `server.go`: split the pattern, default an
empty local to `"*"`, canonicalize the local, reject when the slot at
the canonical local is populated, then store the entry.  NOTE: the store
is `dp[l] = ap` — keyed by the original local `l`, exactly as in the
source — while the duplicate check reads `dp[cl]`.  `log.Fatal` paths
are modelled as `Except.error`. -/
def muxHandle (m : MuxTable) (pat : String) (handler : Nat) :
    Except String MuxTable :=
  match SplitAddress pat with
  | Except.error e => Except.error e
  | Except.ok (l0, d) =>
    let l := if l0 = "" then "*" else l0
    let cl := CanonicalizeEmail l
    let dp := (m.lookup d).getD []
    match dp.lookup cl with
    | some _ => Except.error ("Handle Pattern already used!" ++ pat)
    | none => Except.ok (mapSet m d (mapSet dp l ⟨handler, pat⟩))

/-- `ServeMux.ServeSMTP` from `server.go`: split the recipient, fail any
unsplittable address, then look up the handler: in the exact-domain map
try the canonical local then `"*"`; only when the exact domain has no
map at all, repeat in the `"*"`-domain map; otherwise `Bad Address`.
Returns the invoked handler's identifier. -/
def muxServeSMTP (m : MuxTable) (toAddr : String) : Except String Nat :=
  match SplitAddress toAddr with
  | Except.error _ => Except.error "Invalid Address"
  | Except.ok (l, d) =>
    let cl := CanonicalizeEmail l
    match m.lookup d with
    | some dp =>
      match dp.lookup cl with
      | some ap => Except.ok ap.h
      | none =>
        match dp.lookup "*" with
        | some ap => Except.ok ap.h
        | none => Except.error "Bad Address"
    | none =>
      match m.lookup "*" with
      | some dp =>
        match dp.lookup cl with
        | some ap => Except.ok ap.h
        | none =>
          match dp.lookup "*" with
          | some ap => Except.ok ap.h
          | none => Except.error "Bad Address"
      | none => Except.error "Bad Address"

/-- A hit within one per-domain map `dp`: either the canonical-local
slot holds an entry whose handler is `hv`, or that slot is empty and the
`"*"` slot holds an entry whose handler is `hv`. -/
def hitIn (dp : LocalMap) (cl : String) (hv : Nat) : Prop :=
  (∃ ap, dp.lookup cl = some ap ∧ ap.h = hv) ∨
  (dp.lookup cl = none ∧ ∃ ap, dp.lookup "*" = some ap ∧ ap.h = hv)

/-- A concrete request used by witnesses and counterexamples: cleartext
session, no callbacks, `MaxBodySize = 10`, transaction in progress with
sender `a@x` and one recipient `b@y`. -/
def reqTx : Request :=
  { server := ⟨"localhost", false, none, false, 10⟩
    tlsState := false
    helloHost := "me"
    helloRecieved := true
    mailFromReceived := true
    authUser := ""
    fromAddr := "a@x"
    toRcpts := ["b@y"]
    message := none
    quitSent := false
    spfResult := 0
    mailable := false
    line := ["DATA"] }

/-- A muxer table with an exact-domain map for `b` (only local `x`) and a
wildcard-domain map holding local `c`; used to probe the fallback order. -/
def mcex : MuxTable :=
  [("b", [("x", ⟨1, "x@b"⟩)]), ("*", [("c", ⟨3, "c@*"⟩)])]

/-- Theorems: each claim of the specification is settled below, against
the definitions above. -/

theorem dropWhile_self_idem (p : Char → Bool) (l : List Char) :
    (l.dropWhile p).dropWhile p = l.dropWhile p := by
  induction l with
  | nil => rfl
  | cons a t ih =>
    by_cases h : p a
    · simp [List.dropWhile_cons, h, ih]
    · simp [List.dropWhile_cons, h]

theorem trimLeftWs_idem (l : List Char) :
    trimLeftWs (trimLeftWs l) = trimLeftWs l := by
  simp [trimLeftWs, dropWhile_self_idem]

theorem trimRightWs_idem (l : List Char) :
    trimRightWs (trimRightWs l) = trimRightWs l := by
  simp [trimRightWs, dropWhile_self_idem]

theorem trimRightWs_prefix_self (l : List Char) : trimRightWs l <+: l := by
  have h := List.dropWhile_suffix (l := l.reverse) (p := isSpaceGo)
  have h2 : (l.reverse.dropWhile isSpaceGo).reverse <+: l.reverse.reverse :=
    List.reverse_prefix.mpr h
  simpa [trimRightWs] using h2

theorem trimLeftWs_of_prefix_self {m t : List Char}
    (hm : trimLeftWs m = m) (hp : t <+: m) : trimLeftWs t = t := by
  cases t with
  | nil => rfl
  | cons x t' =>
    obtain ⟨r, hr⟩ := hp
    have hx : ¬ (isSpaceGo x = true) := by
      intro hws
      have hlen : (trimLeftWs m).length ≤ m.length - 1 := by
        subst hr
        simp only [trimLeftWs, List.cons_append, List.dropWhile_cons, hws, if_true]
        have := (List.dropWhile_suffix (l := t' ++ r) (p := isSpaceGo)).length_le
        simp only [List.length_cons]
        omega
      rw [hm] at hlen
      have : 0 < m.length := by subst hr; simp
      omega
    subst hr
    simp [trimLeftWs, List.dropWhile_cons, hx]

theorem trimSpace_idem (l : List Char) :
    trimSpace (trimSpace l) = trimSpace l := by
  unfold trimSpace
  have h1 : trimLeftWs (trimRightWs (trimLeftWs l)) = trimRightWs (trimLeftWs l) :=
    trimLeftWs_of_prefix_self (trimLeftWs_idem l) (trimRightWs_prefix_self (trimLeftWs l))
  rw [h1, trimRightWs_idem]

theorem isSpaceGo_toLowerGo (c : Char) :
    isSpaceGo (toLowerGo c) = isSpaceGo c := by
  unfold toLowerGo
  split <;> first | rfl | decide

theorem toLowerGo_mem (c : Char) :
    toLowerGo c = c ∨ toLowerGo c ∈
      ['a','b','c','d','e','f','g','h','i','j','k','l','m',
       'n','o','p','q','r','s','t','u','v','w','x','y','z'] := by
  unfold toLowerGo
  split <;> first | exact Or.inl rfl | exact Or.inr (by decide)

theorem toLowerGo_idem (c : Char) : toLowerGo (toLowerGo c) = toLowerGo c := by
  rcases toLowerGo_mem c with h | h
  · simp only [h]
  · simp only [List.mem_cons, List.not_mem_nil, or_false] at h
    rcases h with h|h|h|h|h|h|h|h|h|h|h|h|h|h|h|h|h|h|h|h|h|h|h|h|h|h <;>
      rw [h] <;> rfl

theorem toLowerGo_ne_dot {c : Char} (h : ¬ c = '.') : ¬ toLowerGo c = '.' := by
  unfold toLowerGo
  split <;> first | exact h | decide

theorem toLowerGo_ne_plus {c : Char} (h : ¬ c = '+') : ¬ toLowerGo c = '+' := by
  unfold toLowerGo
  split <;> first | exact h | decide

theorem lastIdxAux_eq_none {c : Char} {l : List Char} (h : c ∉ l) (i : Nat) :
    lastIdxAux c l i = none := by
  induction l generalizing i with
  | nil => rfl
  | cons x xs ih =>
    simp only [List.mem_cons, not_or] at h
    have hx : ¬ (x = c) := fun hxc => h.1 hxc.symm
    simp [lastIdxAux, ih h.2, hx]

theorem lastIndex_eq_none {c : Char} {l : List Char} (h : c ∉ l) :
    lastIndex l c = none :=
  lastIdxAux_eq_none h 0

theorem mem_of_mem_trimSpace {c : Char} {l : List Char}
    (h : c ∈ trimSpace l) : c ∈ l := by
  unfold trimSpace trimRightWs trimLeftWs at h
  rw [List.mem_reverse] at h
  have h2 := (List.dropWhile_sublist (l := (l.dropWhile isSpaceGo).reverse)
    (p := isSpaceGo)).subset h
  rw [List.mem_reverse] at h2
  exact (List.dropWhile_sublist (l := l) (p := isSpaceGo)).subset h2

theorem trimLeftWs_map_toLowerGo (l : List Char) :
    trimLeftWs (l.map toLowerGo) = (trimLeftWs l).map toLowerGo := by
  unfold trimLeftWs
  rw [List.dropWhile_map]
  have : (isSpaceGo ∘ toLowerGo) = isSpaceGo := funext isSpaceGo_toLowerGo
  rw [this]

theorem trimRightWs_map_toLowerGo (l : List Char) :
    trimRightWs (l.map toLowerGo) = (trimRightWs l).map toLowerGo := by
  unfold trimRightWs
  rw [← List.map_reverse, List.dropWhile_map]
  have : (isSpaceGo ∘ toLowerGo) = isSpaceGo := funext isSpaceGo_toLowerGo
  rw [this, List.map_reverse]

theorem trimSpace_map_toLowerGo (l : List Char) :
    trimSpace (l.map toLowerGo) = (trimSpace l).map toLowerGo := by
  unfold trimSpace
  rw [trimLeftWs_map_toLowerGo, trimRightWs_map_toLowerGo]

theorem canonicalizeL_no_special {l : List Char}
    (h : ∀ c ∈ l, ¬ c = '.' ∧ ¬ c = '+') :
    canonicalizeL l = (trimSpace l).map toLowerGo := by
  unfold canonicalizeL
  have hfilter : ((trimSpace l).map toLowerGo).filter (fun c => !(c = '.')) =
      (trimSpace l).map toLowerGo := by
    rw [List.filter_eq_self]
    intro a ha
    obtain ⟨b, hb, rfl⟩ := List.mem_map.mp ha
    simp [toLowerGo_ne_dot (h b (mem_of_mem_trimSpace hb)).1]
  have hplus : '+' ∉ (trimSpace l).map toLowerGo := by
    intro hmem
    obtain ⟨b, hb, hbe⟩ := List.mem_map.mp hmem
    exact toLowerGo_ne_plus (h b (mem_of_mem_trimSpace hb)).2 hbe
  simp only [hfilter, lastIndex_eq_none hplus]

/-- C7 (counterexample): `CanonicalizeEmail` is not idempotent.  The
local `a+b+c` canonicalizes to `a+b` (truncation at the LAST '+'), which
still contains a '+' at a positive index, so a second pass truncates
again, to `a`. -/
theorem CanonicalizeEmail_not_idempotent_cex :
    CanonicalizeEmail "a+b+c" = "a+b" ∧ CanonicalizeEmail "a+b" = "a" ∧
    ¬ (CanonicalizeEmail (CanonicalizeEmail "a+b+c") = CanonicalizeEmail "a+b+c") := by
  refine ⟨rfl, rfl, ?_⟩
  intro h
  have : ("a" : String) = "a+b" := by
    calc ("a" : String) = CanonicalizeEmail (CanonicalizeEmail "a+b+c") := rfl
    _ = CanonicalizeEmail "a+b+c" := h
    _ = "a+b" := rfl
  exact absurd this (by decide)

/-- C7 (amended): `CanonicalizeEmail` is idempotent on every string that
contains neither '.' nor '+'.  (In general it is not: repeated '+'
sections are stripped one per application, and deleting dots can expose
fresh edge whitespace, e.g. `"a . "` canonicalizes to `"a "` and then to
`"a"`.) -/
theorem CanonicalizeEmail_idem_no_dot_plus (s : String)
    (h : ∀ c ∈ s.data, ¬ c = '.' ∧ ¬ c = '+') :
    CanonicalizeEmail (CanonicalizeEmail s) = CanonicalizeEmail s := by
  unfold CanonicalizeEmail
  show String.mk (canonicalizeL (canonicalizeL s.data)) = String.mk (canonicalizeL s.data)
  have h1 : canonicalizeL s.data = (trimSpace s.data).map toLowerGo :=
    canonicalizeL_no_special h
  have hmem : ∀ c ∈ (trimSpace s.data).map toLowerGo, ¬ c = '.' ∧ ¬ c = '+' := by
    intro c hc
    obtain ⟨a, ha, rfl⟩ := List.mem_map.mp hc
    have hp := h a (mem_of_mem_trimSpace ha)
    exact ⟨toLowerGo_ne_dot hp.1, toLowerGo_ne_plus hp.2⟩
  rw [h1, canonicalizeL_no_special hmem, trimSpace_map_toLowerGo, trimSpace_idem,
    List.map_map]
  have hidem : (toLowerGo ∘ toLowerGo) = toLowerGo := funext toLowerGo_idem
  rw [hidem]

/-- C7 (witness): the amended idempotence law applied to the concrete
local `" Ab c"` (whitespace-padded mixed case, no dot and no plus). -/
theorem CanonicalizeEmail_idem_witness :
    (∀ c ∈ (" Ab c" : String).data, ¬ c = '.' ∧ ¬ c = '+') ∧
    CanonicalizeEmail (CanonicalizeEmail " Ab c") = CanonicalizeEmail " Ab c" :=
  ⟨by decide, CanonicalizeEmail_idem_no_dot_plus " Ab c" (by decide)⟩

theorem lastIdxAux_append {c : Char} (xs ys : List Char) (h : c ∉ ys)
    (i : Nat) : lastIdxAux c (xs ++ c :: ys) i = some (i + xs.length) := by
  induction xs generalizing i with
  | nil => simp [lastIdxAux, lastIdxAux_eq_none h]
  | cons x xs ih =>
    simp [lastIdxAux, ih]
    omega

theorem lastIndex_append {c : Char} (xs ys : List Char) (h : c ∉ ys) :
    lastIndex (xs ++ c :: ys) c = some xs.length := by
  unfold lastIndex
  simpa using lastIdxAux_append xs ys h 0

/-- C8 (counterexample): with `l = "a"` (no '@') and `d = "b@c"`,
`SplitAddress (l ++ "@" ++ d)` splits at the LAST '@' and returns
`("a@b", "c")`, not `(l, d)`. -/
theorem SplitAddress_append_cex :
    ('@' ∉ ("a" : String).data) ∧
    SplitAddress ("a" ++ "@" ++ "b@c") = Except.ok ("a@b", "c") ∧
    ¬ (SplitAddress ("a" ++ "@" ++ "b@c") = Except.ok ("a", "b@c")) := by
  refine ⟨by decide, by decide, by decide⟩

/-- C8 (amended): `SplitAddress (l ++ "@" ++ d) = (l, d)` for every
local `l` (even one containing '@') and every domain `d` that contains
no '@': the split is at the last '@', so only the domain needs to be
'@'-free. -/
theorem SplitAddress_append (l d : String) (h : '@' ∉ d.data) :
    SplitAddress (l ++ "@" ++ d) = Except.ok (l, d) := by
  have hdata : (l ++ "@" ++ d).data = l.data ++ '@' :: d.data := by
    rw [String.data_append, String.data_append, List.append_assoc]
    rfl
  have htake : (l.data ++ '@' :: d.data).take l.data.length = l.data :=
    List.take_left l.data ('@' :: d.data)
  have hdrop : (l.data ++ '@' :: d.data).drop (l.data.length + 1) = d.data := by
    have h2 : l.data ++ '@' :: d.data = (l.data ++ ['@']) ++ d.data := by simp
    have hlen : (l.data ++ ['@']).length = l.data.length + 1 := by simp
    rw [h2, ← hlen]
    exact List.drop_left (l.data ++ ['@']) d.data
  have hsplit : splitAddressL (l ++ "@" ++ d).data = some (l.data, d.data) := by
    unfold splitAddressL
    rw [hdata, lastIndex_append l.data d.data h]
    simp only [htake, hdrop]
  unfold SplitAddress
  rw [hsplit]

/-- C8 (witness): the amended split law at `l = "a@b"` (which even
contains an '@') and `d = "c"`. -/
theorem SplitAddress_append_witness :
    ('@' ∉ ("c" : String).data) ∧
    SplitAddress ("a@b" ++ "@" ++ "c") = Except.ok ("a@b", "c") :=
  ⟨by decide, SplitAddress_append "a@b" "c" (by decide)⟩

theorem fromNullPre : ("FROM:".data.isPrefixOf "FROM:<>".data) = true := by decide

theorem toNullPre : ("TO:".data.isPrefixOf "TO:<>".data) = true := by decide

theorem matchNull : emailMatch "<>" = some "" := by decide

theorem matchBC : emailMatch "<b@c>" = some "b@c" := by decide

theorem authplain_ne_greets (h : String) : ¬ ("AUTH PLAIN" = "Greets " ++ h) := by
  intro ht
  have hh : ("Greets " ++ h).data.head? = some 'G' := by
    rw [String.data_append]
    rfl
  rw [← ht] at hh
  exact absurd hh (by decide)

theorem greets_ne_authplain (h : String) : ¬ ("Greets " ++ h = "AUTH PLAIN") :=
  fun he => authplain_ne_greets h he.symm

/-- C3: a RCPT command processed while mail-from-received is false gets
the single reply `503 Bad sequence of commands` with the request state
untouched, and a DATA command processed while mail-from-received is
false or the recipient list is empty likewise gets `503 Bad sequence of
commands` with the state untouched; rendered, that reply begins with
`503`. -/
theorem rcpt_data_bad_sequence (req : Request) (parsed : Option MessageR)
    (herr : Option String) :
    (req.mailFromReceived = false →
      rcptProcessor req = ⟨req, [⟨503, false, "Bad sequence of commands"⟩]⟩) ∧
    (req.mailFromReceived = false ∨ req.toRcpts = [] →
      dataProcessor req parsed herr =
        ⟨req, [⟨503, false, "Bad sequence of commands"⟩]⟩) ∧
    ("503".data.isPrefixOf
      (Reply.render ⟨503, false, "Bad sequence of commands"⟩).data = true) := by
  refine ⟨?_, ?_, by decide⟩
  · intro h
    simp [rcptProcessor, h]
  · rintro (h | h)
    · simp [dataProcessor, h]
    · simp [dataProcessor, h]

/-- C3 (witness): the bad-sequence theorem applied to a concrete request
whose mail-from-received flag is false. -/
theorem rcpt_data_bad_sequence_witness :
    rcptProcessor { reqTx with mailFromReceived := false } =
      ⟨{ reqTx with mailFromReceived := false },
       [⟨503, false, "Bad sequence of commands"⟩]⟩ ∧
    dataProcessor { reqTx with mailFromReceived := false } none none =
      ⟨{ reqTx with mailFromReceived := false },
       [⟨503, false, "Bad sequence of commands"⟩]⟩ :=
  ⟨(rcpt_data_bad_sequence { reqTx with mailFromReceived := false } none none).1 rfl,
   (rcpt_data_bad_sequence { reqTx with mailFromReceived := false } none none).2.1
     (Or.inl rfl)⟩

/-- C4: after a DATA that handed the parsed body to the handler (whatever
the handler returned; the DATA preconditions scope only over that
conjunct), and after EVERY RSET command — whatever the session state,
including a transaction with a sender but no recipients yet — the
transaction fields `From`, `MailFromReceived`, `To` and `Message` are
back at their defaults while `AuthUser` and the TLS state are unchanged;
RSET replies `250 Ok` and a DATA whose handler succeeded replies
`250 OK`. -/
theorem data_rset_reset_frame (req : Request) (m : MessageR) (herr : Option String) :
    (¬ (req.toRcpts = []) → req.mailFromReceived = true →
      ((dataProcessor req (some m) herr).req =
        { req with fromAddr := "", mailFromReceived := false,
                   toRcpts := [], message := none } ∧
       (dataProcessor req (some m) herr).req.authUser = req.authUser ∧
       (dataProcessor req (some m) herr).req.tlsState = req.tlsState ∧
       (dataProcessor req (some m) none).replies =
         [⟨354, false, "End data with <CR><LF>.<CR><LF>"⟩, ⟨250, false, "OK"⟩])) ∧
    rsetProcessor req =
      ⟨{ req with fromAddr := "", mailFromReceived := false,
                  toRcpts := [], message := none },
       [⟨250, false, "Ok"⟩]⟩ ∧
    (rsetProcessor req).req.authUser = req.authUser ∧
    (rsetProcessor req).req.tlsState = req.tlsState := by
  constructor
  · intro hto hmfr
    have hne : req.toRcpts.isEmpty = false := by
      simp [List.isEmpty_iff, hto]
    cases herr <;>
      simp [dataProcessor, Request.Reset, hne, hmfr]
  · simp [rsetProcessor, Request.Reset]

/-- C4 (witness): the reset/frame theorem applied to the concrete
in-transaction request `reqTx`, and its unconditional RSET part also at
a request holding a sender but an empty recipient list (RSET after MAIL,
before any RCPT), where `From` is indeed cleared. -/
theorem data_rset_reset_frame_witness :
    ¬ (reqTx.toRcpts = []) ∧
    (dataProcessor reqTx (some MessageR.mk) none).req =
      { reqTx with fromAddr := "", mailFromReceived := false,
                   toRcpts := [], message := none } ∧
    rsetProcessor reqTx =
      ⟨{ reqTx with fromAddr := "", mailFromReceived := false,
                    toRcpts := [], message := none },
       [⟨250, false, "Ok"⟩]⟩ ∧
    rsetProcessor { reqTx with toRcpts := [] } =
      ⟨{ reqTx with fromAddr := "", mailFromReceived := false,
                    toRcpts := [], message := none },
       [⟨250, false, "Ok"⟩]⟩ :=
  ⟨by decide,
   ((data_rset_reset_frame reqTx MessageR.mk none).1 (by decide) rfl).1,
   (data_rset_reset_frame reqTx MessageR.mk none).2.1,
   (data_rset_reset_frame { reqTx with toRcpts := [] } MessageR.mk none).2.1⟩

/-- C1 (counterexample): on a DATA whose body read/parse fails, the
processor does reply `503 error parsing the DATA, it may exceeded the
max size of 10 bytes` — but it does NOT reset the transaction: `From`
is still `a@x`, `MailFromReceived` still true, the recipient list still
`[b@y]`; only `Message` ends up nil.  This refutes the claim that the
transaction state is reset on that path. -/
theorem dataProcessor_parse_fail_cex :
    (dataProcessor reqTx none none).replies.map Reply.render =
      ["354 End data with <CR><LF>.<CR><LF>",
       "503 error parsing the DATA, it may exceeded the max size of 10 bytes"] ∧
    ¬ ((dataProcessor reqTx none none).req.fromAddr = "") ∧
    (dataProcessor reqTx none none).req.fromAddr = "a@x" ∧
    (dataProcessor reqTx none none).req.mailFromReceived = true ∧
    (dataProcessor reqTx none none).req.toRcpts = ["b@y"] := by decide

/-- C1 (amended): when the DATA body read or parse fails (including a
body over `MaxBodySize`), the processor replies `354` then the `503`
error-parsing message naming `MaxBodySize`, and the session continues
(`QuitSent` untouched) — but the transaction is NOT reset: only
`Message` becomes nil, while `From`, `MailFromReceived`, the recipient
list and `AuthUser` keep their values. -/
theorem dataProcessor_parse_fail_behavior (req : Request) (herr : Option String)
    (hto : ¬ (req.toRcpts = [])) (hmfr : req.mailFromReceived = true) :
    dataProcessor req none herr =
      ⟨{ req with message := none },
       [⟨354, false, "End data with <CR><LF>.<CR><LF>"⟩,
        ⟨503, false, "error parsing the DATA, it may exceeded the max size of "
          ++ toString req.server.maxBodySize ++ " bytes"⟩]⟩ ∧
    (dataProcessor req none herr).req.fromAddr = req.fromAddr ∧
    (dataProcessor req none herr).req.mailFromReceived = true ∧
    (dataProcessor req none herr).req.toRcpts = req.toRcpts ∧
    (dataProcessor req none herr).req.authUser = req.authUser ∧
    (dataProcessor req none herr).req.quitSent = req.quitSent := by
  have hne : req.toRcpts.isEmpty = false := by
    simp [List.isEmpty_iff, hto]
  simp [dataProcessor, hne, hmfr]

/-- C1 (witness): the parse-failure behavior applied to the concrete
request `reqTx` (`MaxBodySize = 10`). -/
theorem dataProcessor_parse_fail_witness :
    ¬ (reqTx.toRcpts = []) ∧
    dataProcessor reqTx none none =
      ⟨{ reqTx with message := none },
       [⟨354, false, "End data with <CR><LF>.<CR><LF>"⟩,
        ⟨503, false, "error parsing the DATA, it may exceeded the max size of "
          ++ toString reqTx.server.maxBodySize ++ " bytes"⟩]⟩ :=
  ⟨by decide, (dataProcessor_parse_fail_behavior reqTx none (by decide) rfl).1⟩

/-- C2 (counterexample): the `conn.readCommand` EHLO variant of
`server.go` puts `250-AUTH PLAIN` in the banner whenever the auth
callback is set — here with TLS configured but not yet active (the same
banner also offers STARTTLS), refuting "the banner never contains
`AUTH PLAIN` when TLS is configured but not yet active". -/
theorem ehloConn_auth_plain_cleartext_cex :
    (Reply.mk 250 true "AUTH PLAIN") ∈ ehloBannerConn true false true "me" ∧
    (Reply.mk 250 true "STARTTLS") ∈ ehloBannerConn true false true "me" := by
  decide

/-- C2 (amended): the go-smtpsrv `ehloProcessor` banner contains
`250-AUTH PLAIN` iff the auth callback is set and TLS is either not
configured or already active; the legacy `conn.readCommand` EHLO banner
of `server.go` contains `250-AUTH PLAIN` iff the auth callback is set,
with no condition on TLS. -/
theorem ehlo_auth_plain_iff (req : Request) (tc ta as : Bool) (host : String)
    (h2 : 2 ≤ req.line.length) :
    ((Reply.mk 250 true "AUTH PLAIN") ∈ (ehloProcessor req).replies ↔
      (req.server.authSet = true ∧
        (req.server.tlsConfigured = false ∨ req.tlsState = true))) ∧
    ((Reply.mk 250 true "AUTH PLAIN") ∈ ehloBannerConn tc ta as host ↔
      as = true) := by
  have hlt : ¬ (req.line.length < 2) := by omega
  constructor
  · cases hauth : req.server.authSet <;>
    cases htls : req.server.tlsConfigured <;>
    cases hst : req.tlsState <;>
      simp [ehloProcessor, hlt, hauth, htls, hst,
        authplain_ne_greets, greets_ne_authplain]
  · cases has : as <;> cases htc : tc <;> cases hta : ta <;>
      simp [ehloBannerConn, authplain_ne_greets, greets_ne_authplain]

/-- C2 (witness): the banner characterization applied to a concrete
`EHLO me` request without TLS and with the auth callback unset, and to
the conn-variant banner with the auth callback set. -/
theorem ehlo_auth_plain_iff_witness :
    2 ≤ ({ reqTx with line := ["EHLO", "me"] } : Request).line.length ∧
    (((Reply.mk 250 true "AUTH PLAIN") ∈
        (ehloProcessor { reqTx with line := ["EHLO", "me"] }).replies ↔
      (({ reqTx with line := ["EHLO", "me"] } : Request).server.authSet = true ∧
        (({ reqTx with line := ["EHLO", "me"] } : Request).server.tlsConfigured
            = false ∨
         ({ reqTx with line := ["EHLO", "me"] } : Request).tlsState = true))) ∧
     ((Reply.mk 250 true "AUTH PLAIN") ∈ ehloBannerConn false false true "me" ↔
       (true : Bool) = true)) :=
  ⟨by decide,
   ehlo_auth_plain_iff { reqTx with line := ["EHLO", "me"] } false false true "me"
     (by decide)⟩

/-- C9 (counterexample): a RCPT command with argument `TO:<>` is NOT
rejected: the shared regex `^<((\S+)@(\S+))?>$` accepts `<>` via its
optional group, so (with no Addressable callback) the processor replies
`250 Ok` and appends the empty string to the recipient list.  This
refutes "`<>` is accepted only for MAIL". -/
theorem rcpt_null_path_cex :
    (rcptProcessor { reqTx with toRcpts := [], line := ["RCPT", "TO:<>"] }).replies
      = [⟨250, false, "Ok"⟩] ∧
    (rcptProcessor { reqTx with toRcpts := [], line := ["RCPT", "TO:<>"] }).req.toRcpts
      = [""] := by decide

/-- C9 (amended): the null path `<>` is accepted for BOTH verbs.  A MAIL
command with `FROM:<>` succeeds, setting mail-from-received with `From`
left empty; a RCPT command with `TO:<>` (no Addressable callback
configured) also succeeds, appending the empty string to the recipient
list. -/
theorem null_path_accepted (req : Request) (spfRes : Nat) (mxOk : Bool)
    (hauth : req.server.authSet = false) (hfrom : req.fromAddr = "")
    (haddr : req.server.addressable = none) (hmfr : req.mailFromReceived = true) :
    mailProcessor { req with line := ["MAIL", "FROM:<>"] } spfRes mxOk =
      ⟨{ req with line := ["MAIL", "FROM:<>"],
                  mailFromReceived := true, fromAddr := "" },
       [⟨250, false, "Ok"⟩]⟩ ∧
    rcptProcessor { req with line := ["RCPT", "TO:<>"] } =
      ⟨{ req with line := ["RCPT", "TO:<>"], toRcpts := req.toRcpts ++ [""] },
       [⟨250, false, "Ok"⟩]⟩ := by
  constructor
  · simp [mailProcessor, hauth, hfrom, fromNullPre, matchNull]
  · simp [rcptProcessor, hmfr, haddr, toNullPre, matchNull]

/-- C9 (witness): both null-path acceptances at a concrete request with
an empty `From` and one prior recipient. -/
theorem null_path_accepted_witness :
    ({ reqTx with fromAddr := "" } : Request).server.authSet = false ∧
    mailProcessor { { reqTx with fromAddr := "" } with line := ["MAIL", "FROM:<>"] } 0 false =
      ⟨{ { reqTx with fromAddr := "" } with line := ["MAIL", "FROM:<>"], mailFromReceived := true, fromAddr := "" },
       [⟨250, false, "Ok"⟩]⟩ ∧
    rcptProcessor { { reqTx with fromAddr := "" } with line := ["RCPT", "TO:<>"] } =
      ⟨{ { reqTx with fromAddr := "" } with line := ["RCPT", "TO:<>"], toRcpts := ({ reqTx with fromAddr := "" } : Request).toRcpts ++ [""] },
       [⟨250, false, "Ok"⟩]⟩ :=
  ⟨rfl,
   (null_path_accepted { reqTx with fromAddr := "" } 0 false rfl rfl rfl rfl).1,
   (null_path_accepted { reqTx with fromAddr := "" } 0 false rfl rfl rfl rfl).2⟩

/-- C10: after a MAIL with the null reverse-path `FROM:<>` succeeds
(mail-from-received true, `From` still empty), a second MAIL in the same
transaction is NOT rejected with `503 MAIL command already recieved`:
the duplicate guard tests `From != ""`, so the second MAIL is processed
again with `250 Ok` and overwrites the sender. -/
theorem mail_from_guard_tests_from (req : Request) (spf1 spf2 : Nat) (mx1 mx2 : Bool)
    (hauth : req.server.authSet = false) (hfrom : req.fromAddr = "")
    (hline : req.line = ["MAIL", "FROM:<>"]) :
    (mailProcessor req spf1 mx1).req.mailFromReceived = true ∧
    (mailProcessor req spf1 mx1).req.fromAddr = "" ∧
    (mailProcessor req spf1 mx1).replies = [⟨250, false, "Ok"⟩] ∧
    (mailProcessor { (mailProcessor req spf1 mx1).req with
        line := ["MAIL", "FROM:<b@c>"] } spf2 mx2).replies =
      [⟨250, false, "Ok"⟩] ∧
    ¬ ((mailProcessor { (mailProcessor req spf1 mx1).req with
        line := ["MAIL", "FROM:<b@c>"] } spf2 mx2).replies =
      [⟨503, false, "MAIL command already recieved"⟩]) ∧
    (mailProcessor { (mailProcessor req spf1 mx1).req with
        line := ["MAIL", "FROM:<b@c>"] } spf2 mx2).req.fromAddr = "b@c" := by
  have h1 : mailProcessor req spf1 mx1 =
      ⟨{ req with mailFromReceived := true, fromAddr := "" },
       [⟨250, false, "Ok"⟩]⟩ := by
    simp [mailProcessor, hauth, hfrom, hline, fromNullPre, matchNull]
  rw [h1]
  have hpre : ("FROM:".data.isPrefixOf "FROM:<b@c>".data) = true := by decide
  simp [mailProcessor, hauth, hpre, matchBC]

/-- C10 (witness): the duplicate-MAIL guard behavior at a concrete
request carrying `MAIL FROM:<>`. -/
theorem mail_from_guard_witness :
    (mailProcessor { reqTx with fromAddr := "", line := ["MAIL", "FROM:<>"] } 0 false).req.mailFromReceived = true ∧
    (mailProcessor { (mailProcessor { reqTx with fromAddr := "", line := ["MAIL", "FROM:<>"] } 0 false).req with line := ["MAIL", "FROM:<b@c>"] } 0 false).req.fromAddr = "b@c" :=
  ⟨(mail_from_guard_tests_from { reqTx with fromAddr := "", line := ["MAIL", "FROM:<>"] } 0 0 false false rfl rfl rfl).1,
   (mail_from_guard_tests_from { reqTx with fromAddr := "", line := ["MAIL", "FROM:<>"] } 0 0 false false rfl rfl rfl).2.2.2.2.2⟩

/-- C5: `ServeMux.Handle` stores the new entry under the ORIGINAL local
part (`dp[l] = ap`, line 504 of `server.go`) although the duplicate
check and dispatch read the canonical slot.  Registering `A@b` leaves
the claimed slot `("b", CanonicalizeEmail "A") = ("b", "a")` empty, and
a second registration of the very same pattern is not detected as a
duplicate — it silently replaces the first entry. -/
theorem muxHandle_stores_original_cex :
    muxHandle [] "A@b" 1 = Except.ok [("b", [("A", ⟨1, "A@b"⟩)])] ∧
    ((([("b", [("A", (⟨1, "A@b"⟩ : MuxEntry))])] : MuxTable).lookup "b").bind
      (fun dp => dp.lookup (CanonicalizeEmail "A"))) = none ∧
    muxHandle [("b", [("A", ⟨1, "A@b"⟩)])] "A@b" 2 =
      Except.ok [("b", [("A", ⟨2, "A@b"⟩)])] := by decide

/-- C6 (counterexample): with the exact-domain map for `b` populated
(only local `x`) and the wildcard-domain slot `("*", "c")` populated,
dispatching `c@b` returns `Bad Address` instead of invoking the handler
in the populated slot `("*", cl)` — the claimed four-step fallback does
not cross from an existing exact-domain map to the wildcard domain. -/
theorem muxServe_no_cross_fallback_cex :
    SplitAddress "c@b" = Except.ok ("c", "b") ∧
    ((mcex.lookup "*").bind (fun dp => dp.lookup (CanonicalizeEmail "c"))) =
      some ⟨3, "c@*"⟩ ∧
    muxServeSMTP mcex "c@b" = Except.error "Bad Address" := by decide

/-- C6 (amended): dispatch picks the domain axis first and commits to
it: when the table has a map for `d`, the handler comes from `(d, cl)`
or else `(d, "*")`, and otherwise the dispatch fails with `Bad Address`
even if a wildcard-domain slot is populated; only when there is no map
for `d` at all are `("*", cl)` then `("*", "*")` tried.  No populated
slot on the chosen domain axis means the error `Bad Address` and no
handler is invoked. -/
theorem muxServeSMTP_ok_iff (m : MuxTable) (R l d : String) (hv : Nat)
    (hsplit : SplitAddress R = Except.ok (l, d)) :
    (muxServeSMTP m R = Except.ok hv ↔
      ((∃ dp, m.lookup d = some dp ∧ hitIn dp (CanonicalizeEmail l) hv) ∨
       (m.lookup d = none ∧
        ∃ dp, m.lookup "*" = some dp ∧ hitIn dp (CanonicalizeEmail l) hv))) ∧
    (muxServeSMTP m R = Except.error "Bad Address" ↔
      ((∃ dp, m.lookup d = some dp ∧ dp.lookup (CanonicalizeEmail l) = none ∧
          dp.lookup "*" = none) ∨
       (m.lookup d = none ∧ m.lookup "*" = none) ∨
       (m.lookup d = none ∧ ∃ dp, m.lookup "*" = some dp ∧
          dp.lookup (CanonicalizeEmail l) = none ∧ dp.lookup "*" = none))) := by
  unfold muxServeSMTP
  rw [hsplit]
  rcases h1 : m.lookup d with _ | dp
  · rcases h2 : m.lookup "*" with _ | dp2
    · simp [h1, h2, hitIn, -List.lookup_eq_none_iff]
    · rcases h3 : dp2.lookup (CanonicalizeEmail l) with _ | ap
      · rcases h4 : dp2.lookup "*" with _ | ap2
        · simp [h1, h2, h3, h4, hitIn, -List.lookup_eq_none_iff]
        · simp [h1, h2, h3, h4, hitIn, -List.lookup_eq_none_iff]
      · simp [h1, h2, h3, hitIn, -List.lookup_eq_none_iff]
  · rcases h3 : dp.lookup (CanonicalizeEmail l) with _ | ap
    · rcases h4 : dp.lookup "*" with _ | ap2
      · simp [h1, h3, h4, hitIn, -List.lookup_eq_none_iff]
      · simp [h1, h3, h4, hitIn, -List.lookup_eq_none_iff]
    · simp [h1, h3, hitIn, -List.lookup_eq_none_iff]

/-- C6 (witness): the dispatch characterization applied to a one-entry
table, recovering the concrete dispatch `a@b` to handler 1. -/
theorem muxServeSMTP_ok_iff_witness :
    SplitAddress "a@b" = Except.ok ("a", "b") ∧
    muxServeSMTP [("b", [("a", ⟨1, "a@b"⟩)])] "a@b" = Except.ok 1 := by
  refine ⟨by decide, ?_⟩
  refine ((muxServeSMTP_ok_iff [("b", [("a", ⟨1, "a@b"⟩)])] "a@b" "a" "b" 1
    (by decide)).1).mpr ?_
  left
  exact ⟨[("a", ⟨1, "a@b"⟩)], by decide, Or.inl ⟨⟨1, "a@b"⟩, by decide, rfl⟩⟩

end SmtpSrv
